import Mathlib

set_option autoImplicit false
set_option maxHeartbeats 1000000

/-!
Shallow embedding of the `ping` repository (src/ping.py, src/validation.py,
src/main.py), a small asyncio tool that probes a list of HTTP hosts and
aggregates per-host statistics.

Modelling conventions:
- Durations (Python floats from `time.monotonic()` differences) are modelled
  as exact rationals; the arithmetic on them (`min`, `max`, `sum/len`) follows
  the source expressions.
- The behaviour of one `session.get(url, timeout=10)` call is a value of
  `NetResult`: a received response with its status code, a raised
  `aiohttp.ClientError`, or a raised `asyncio.TimeoutError`; the elapsed
  monotonic time observed at the terminal event is carried in the value.
  A whole run is parameterised by an oracle `Nat → NetResult` giving the
  behaviour of the i-th dispatched probe task.
- `sys.exit(1)` paths are modelled with `Except ExitError`; the stderr text
  printed on each path is recovered by `ExitError.stderrLines`.
- Lines printed by the probe functions to stderr are returned alongside the
  result tuple.
-/

namespace PingTool

/-- Behaviour of a single `session.get(url, timeout=10)` call, together with
the elapsed monotonic duration observed when the terminal event occurred. -/
inductive NetResult where
  | response (status : Nat) (duration : ℚ)
  | clientError (cause : String) (duration : ℚ)
  | timeout (duration : ℚ)
deriving DecidableEq

/-- Result tuple of `ping_host`: `(url, status_string, duration)`. -/
abbrev ProbeOutcome := String × String × ℚ

/-- Fatal configuration errors: each corresponds to one `sys.exit(1)` site in
`validate_count` / `validate_urls`. -/
inductive ExitError where
  | badCount
  | invalidUrls (invalid : List String)
  | noValidUrls
deriving DecidableEq

/-- Stderr lines printed just before each `sys.exit(1)` call. All invalid
URLs are joined into a single diagnostic line. -/
def ExitError.stderrLines : ExitError → List String
  | ExitError.badCount =>
      ["[ОШИБКА] Количество запросов (--count) должно быть больше нуля."]
  | ExitError.invalidUrls invalid =>
      ["[ОШИБКА] Обнаружены некорректные или неполные URL: " ++
         String.intercalate ", " invalid,
       "Пожалуйста, укажите полные URL, включая схему (например, \x27https://google.com\x27)."]
  | ExitError.noValidUrls =>
      ["[ОШИБКА] Не найдено ни одного корректного URL для тестирования."]

/-- Characters allowed in a URL scheme after the initial letter
(`scheme_chars` of `urllib.parse`). -/
def isSchemeChar (c : Char) : Bool :=
  c.isAlphanum || c == '+' || c == '-' || c == '.'

/-- Split a character list at the first colon, returning the parts before and
after it (`url.find(":")` in `urllib.parse.urlsplit`). -/
def splitOnColon : List Char → Option (List Char × List Char)
  | [] => none
  | c :: cs =>
    if c = ':' then some ([], cs)
    else (splitOnColon cs).map (fun p => (c :: p.1, p.2))

/-- A candidate scheme is accepted when it is non-empty, starts with an ASCII
letter, and consists of scheme characters only. -/
def validScheme : List Char → Bool
  | [] => false
  | c :: rest => c.isAlpha && rest.all isSchemeChar

/-- Scheme and network-location components extracted by
`urllib.parse.urlparse`; only these two fields are consulted by the code. -/
structure UrlParts where
  scheme : String
  netloc : String
deriving DecidableEq

/-- Model of `urllib.parse.urlparse` restricted to the fields the code uses:
the (lower-cased) scheme before the first colon when it is a valid scheme,
and the network location after a leading `//` up to the next `/`, `?` or `#`.
The `ValueError` raised by `urlsplit` on an unbalanced IPv6 bracket in the
netloc is modelled by the `Except.error` branch. -/
def urlparse (url : String) : Except Unit UrlParts :=
  let cs := url.data
  let rest :=
    match splitOnColon cs with
    | some p => if validScheme p.1 then (p.1.map Char.toLower, p.2) else ([], cs)
    | none => (([] : List Char), cs)
  let netloc :=
    if rest.2.take 2 = ['/', '/'] then
      (rest.2.drop 2).takeWhile (fun c => !(c == '/' || c == '?' || c == '#'))
    else []
  if (netloc.contains '[' && !(netloc.contains ']')) ||
      (netloc.contains ']' && !(netloc.contains '[')) then
    Except.error ()
  else
    Except.ok { scheme := String.mk rest.1, netloc := String.mk netloc }

/-- Validity test applied to one host inside the `validate_urls` loop:
`urlparse` succeeds and yields a non-empty scheme and a non-empty netloc
(Python truthiness of `parsed_url.scheme and parsed_url.netloc`); a
`ValueError` from `urlparse` makes the host invalid. -/
def isValidTarget (host : String) : Bool :=
  match urlparse host with
  | Except.ok parsed => parsed.scheme != "" && parsed.netloc != ""
  | Except.error _ => false

namespace PingPy

/-- Body of `ping_host` in src/ping.py, generalised over the error sink: the
stderr sink is an arbitrary state `sink : σ` written through `emit`. The
program text prints to `sys.stderr`; here each `print(...)` becomes an
`emit` of the same line. -/
def ping_host_sink {σ : Type} (emit : String → σ → σ) (sink : σ)
    (url : String) (net : NetResult) : ProbeOutcome × σ :=
  match net with
  | NetResult.response status duration =>
    if status < 400 then ((url, "success", duration), sink)
    else ((url, "failed", duration), sink)
  | NetResult.clientError e duration =>
    ((url, "error", duration),
      emit ("[ОШИБКА] Не удалось подключиться к " ++ url ++ ". Причина: " ++ e) sink)
  | NetResult.timeout duration =>
    ((url, "error", duration),
      emit ("[ОШИБКА] Запрос к " ++ url ++ " превысил время ожидания.") sink)

/-- Function `ping_host` of src/ping.py lines 8-37: one GET request, returning
the `(url, status, duration)` tuple and the list of stderr lines printed. -/
def ping_host (url : String) (net : NetResult) : ProbeOutcome × List String :=
  ping_host_sink (fun m log => log ++ [m]) [] url net

end PingPy

namespace ValidationPy

/-- Function `validate_count` of src/validation.py lines 6-13. -/
def validate_count (count : Int) : Except ExitError Unit :=
  if count < 1 then Except.error ExitError.badCount
  else Except.ok ()

/-- Function `validate_urls` of src/validation.py lines 16-53: partition the
inputs into valid and invalid hosts (skipping empty strings), exit with a
joint diagnostic when any invalid host exists, exit when no valid host
remains, otherwise return the valid hosts. -/
def validate_urls (raw_hosts : List String) : Except ExitError (List String) :=
  let pair := raw_hosts.foldl
    (fun (acc : List String × List String) host =>
      if host = "" then acc
      else
        match urlparse host with
        | Except.ok parsed =>
          if parsed.scheme ≠ "" ∧ parsed.netloc ≠ "" then (acc.1 ++ [host], acc.2)
          else (acc.1, acc.2 ++ [host])
        | Except.error _ => (acc.1, acc.2 ++ [host]))
    ([], [])
  if pair.2 ≠ [] then Except.error (ExitError.invalidUrls pair.2)
  else if pair.1 = [] then Except.error ExitError.noValidUrls
  else Except.ok pair.1

end ValidationPy

namespace MainPy

/-- Function `ping_host` of src/main.py lines 12-39 (a duplicate of the one in
src/ping.py). -/
def ping_host (url : String) (net : NetResult) : ProbeOutcome × List String :=
  match net with
  | NetResult.response status duration =>
    if status < 400 then ((url, "success", duration), [])
    else ((url, "failed", duration), [])
  | NetResult.clientError e duration =>
    ((url, "error", duration),
      ["[ОШИБКА] Не удалось подключиться к " ++ url ++ ". Причина: " ++ e])
  | NetResult.timeout duration =>
    ((url, "error", duration),
      ["[ОШИБКА] Запрос к " ++ url ++ " превысил время ожидания."])

/-- Function `validate_count` of src/main.py lines 41-47. -/
def validate_count (count : Int) : Except ExitError Unit :=
  if count < 1 then Except.error ExitError.badCount
  else Except.ok ()

/-- Function `validate_urls` of src/main.py lines 49-77 (a duplicate of the one
in src/validation.py). -/
def validate_urls (raw_hosts : List String) : Except ExitError (List String) :=
  let pair := raw_hosts.foldl
    (fun (acc : List String × List String) host =>
      if host = "" then acc
      else
        match urlparse host with
        | Except.ok parsed =>
          if parsed.scheme ≠ "" ∧ parsed.netloc ≠ "" then (acc.1 ++ [host], acc.2)
          else (acc.1, acc.2 ++ [host])
        | Except.error _ => (acc.1, acc.2 ++ [host]))
    ([], [])
  if pair.2 ≠ [] then Except.error (ExitError.invalidUrls pair.2)
  else if pair.1 = [] then Except.error ExitError.noValidUrls
  else Except.ok pair.1

/-- Per-host accumulator created by the `defaultdict` factory in src/main.py
line 119: `{"success": 0, "failed": 0, "error": 0, "time": []}`. -/
structure HostData where
  success : Nat
  failed : Nat
  error : Nat
  time : List ℚ
deriving DecidableEq

/-- Fresh accumulator produced by the `defaultdict` default factory. -/
def emptyData : HostData := { success := 0, failed := 0, error := 0, time := [] }

/-- One iteration of the reduction loop body (src/main.py lines 121-124):
`stats[url][status] += 1` followed by appending the duration when the status
is a success. The final branch returns the accumulator unchanged; it is
unreachable for outcomes produced by `ping_host`, whose status is always one
of the three keys (Python would raise `KeyError` there). -/
def bump (d : HostData) (status : String) (duration : ℚ) : HostData :=
  if status = "success" then
    { d with success := d.success + 1, time := d.time ++ [duration] }
  else if status = "failed" then { d with failed := d.failed + 1 }
  else if status = "error" then { d with error := d.error + 1 }
  else d

/-- Fold one outcome into the insertion-ordered association list that models
the Python 3.7+ `defaultdict` (keys keep insertion order): update the entry
with the outcome URL when present, append a fresh bumped entry otherwise. -/
def addOutcome (stats : List (String × HostData)) (r : ProbeOutcome) :
    List (String × HostData) :=
  match stats with
  | [] => [(r.1, bump emptyData r.2.1 r.2.2)]
  | (u, d) :: rest =>
    if u = r.1 then (u, bump d r.2.1 r.2.2) :: rest
    else (u, d) :: addOutcome rest r

/-- Reduction of all gathered results into per-host statistics
(src/main.py lines 119-124). -/
def buildStats (results : List ProbeOutcome) : List (String × HostData) :=
  results.foldl addOutcome []

/-- Task construction loop of src/main.py lines 113-115: for each host in
order, `count` probe invocations of that host are appended to `tasks`. Each
task is identified by the URL it will probe. -/
def buildTasks (hosts : List String) (count : Nat) : List String :=
  hosts.foldl
    (fun acc host => (List.range count).foldl (fun acc2 _ => acc2 ++ [host]) acc)
    []

/-- Execution of the dispatched tasks starting at task index `i`:
`asyncio.gather(*tasks)` returns the outcomes in task order, each task
obtaining its network behaviour from the oracle at its own index. Only the
result tuple of `ping_host` enters the gathered list; the stderr lines go to
the error stream. -/
def runProbesFrom (i : Nat) (tasks : List String) (net : Nat → NetResult) :
    List ProbeOutcome :=
  match tasks with
  | [] => []
  | t :: ts => (ping_host t (net i)).1 :: runProbesFrom (i + 1) ts net

/-- Results list produced by `await asyncio.gather(*tasks)`
(src/main.py line 117). -/
def runProbes (tasks : List String) (net : Nat → NetResult) : List ProbeOutcome :=
  runProbesFrom 0 tasks net

/-- Timing statistics of the rendering loop (src/main.py lines 133-136):
when the duration list is non-empty, `min`, `max` and `sum/len` of it;
`none` when it is empty, matching the guard `if data["time"]:`. Python
`min`/`max` over a non-empty list are left folds of the binary operations. -/
def timeStats : List ℚ → Option (ℚ × ℚ × ℚ)
  | [] => none
  | t :: ts =>
    some (ts.foldl min t, ts.foldl max t, (t :: ts).sum / ((t :: ts).length : ℚ))

/-- Left-pad the fractional part to four digits. -/
def pad4 (n : Nat) : String :=
  if n < 10 then "000" ++ toString n
  else if n < 100 then "00" ++ toString n
  else if n < 1000 then "0" ++ toString n
  else toString n

/-- Rendering of a duration with four decimal places, modelling the Python
format specifier `:.4f` (the tie-breaking rounding mode differs from
IEEE round-half-even; no verified claim depends on rendered digits). -/
def fmt4 (q : ℚ) : String :=
  let scaled : ℤ := round (q * 10000)
  let sign := if scaled < 0 then "-" else ""
  sign ++ toString (scaled.natAbs / 10000) ++ "." ++ pad4 (scaled.natAbs % 10000)

/-- Fixed leading lines of one host block (src/main.py lines 127-131). -/
def reportHeader (host : String) (d : HostData) : List String :=
  ["--- Статистика для " ++ host ++ " ---",
   "  Хост:    " ++ host,
   "  Успешно: " ++ toString d.success,
   "  Неудачно: " ++ toString d.failed ++ " (ошибки клиента/сервера)",
   "  Ошибки:  " ++ toString d.error ++ " (проблемы с соединением)"]

/-- Separator line `"-" * (20 + len(host))` (src/main.py line 142). -/
def sepLine (host : String) : String :=
  String.mk (List.replicate (20 + host.length) '-')

/-- Lines printed for one host by the rendering loop of src/main.py
lines 126-142: header, then either the three timing lines (duration list
non-empty) or the no-statistics message, then the separator. -/
def hostReport (host : String) (d : HostData) : List String :=
  reportHeader host d ++
    (match timeStats d.time with
     | some s =>
       ["  Мин. время: " ++ fmt4 s.1 ++ "с",
        "  Макс. время: " ++ fmt4 s.2.1 ++ "с",
        "  Сред. время: " ++ fmt4 s.2.2 ++ "с"]
     | none => ["  Нет успешных запросов для расчета статистики по времени."]) ++
    [sepLine host]

/-- Splitting of the `--hosts` argument (src/main.py line 104):
`[host.strip() for host in args.hosts.split(",")]`. -/
def parseHostsArg (hostsArg : String) : List String :=
  (hostsArg.splitOn ",").map String.trim

/-- Core pipeline of `main` (src/main.py lines 103-124) starting from the raw
host-string list of line 104: validate the count, validate the URLs, build
and run the probe tasks, and reduce the gathered results into per-host
statistics. A `sys.exit(1)` inside a validator aborts the whole run before
any task is created. -/
def mainRun (countArg : Int) (raw_hosts : List String) (net : Nat → NetResult) :
    Except ExitError (List (String × HostData)) :=
  match validate_count countArg with
  | Except.error e => Except.error e
  | Except.ok _ =>
    match validate_urls raw_hosts with
    | Except.error e => Except.error e
    | Except.ok hosts =>
      Except.ok (buildStats (runProbes (buildTasks hosts countArg.toNat) net))

/-- Whole of `main` after argument parsing, taking the `--hosts` string
itself (src/main.py lines 101-124). -/
def mainFromArgs (countArg : Int) (hostsArg : String) (net : Nat → NetResult) :
    Except ExitError (List (String × HostData)) :=
  mainRun countArg (parseHostsArg hostsArg) net

end MainPy

/-- First occurrence of each element, in order of first appearance: the spec
side description of the key order of the final report. -/
def firstOccurrences : List String → List String
  | [] => []
  | a :: l => a :: firstOccurrences (l.filter (fun b => b != a))
termination_by l => l.length
decreasing_by
  simp only [List.length_cons]
  exact Nat.lt_succ_of_le (List.length_filter_le _ _)

/-- First-match association lookup on the statistics list. -/
def lookupHost : List (String × MainPy.HostData) → String → Option MainPy.HostData
  | [], _ => none
  | (u, d) :: rest, h => if u = h then some d else lookupHost rest h

/-- Classification-count projection of the statistics: per host, the three
counters with durations erased. -/
def countsProj (stats : List (String × MainPy.HostData)) :
    List (String × Nat × Nat × Nat) :=
  stats.map (fun p => (p.1, p.2.success, p.2.failed, p.2.error))

/-- Outcomes of the results list that belong to one host. -/
def occurrencesOf (res : List ProbeOutcome) (h : String) : List ProbeOutcome :=
  res.filter (fun r => r.1 == h)

/-- Accumulation of a list of outcomes into one host accumulator. -/
def accFold (l : List ProbeOutcome) (d : MainPy.HostData) : MainPy.HostData :=
  l.foldl (fun d r => MainPy.bump d r.2.1 r.2.2) d

/-- Host keys of the statistics, in iteration (= insertion) order; the
rendering loop of src/main.py line 126 visits hosts in exactly this order. -/
def keysOf (stats : List (String × MainPy.HostData)) : List String :=
  stats.map Prod.fst

/-- C2: the prober classifies a received response with status code below 400
as success, a received response with status code at least 400 as failed, and
a connection-level failure or a timeout as error; being a total function of
the call behaviour, it produces exactly one classification per attempt. -/
theorem C2_classification (url cause : String) (status : Nat) (d : ℚ) :
    (PingPy.ping_host url (NetResult.response status d)).1 =
      (url, if status < 400 then "success" else "failed", d) ∧
    (PingPy.ping_host url (NetResult.clientError cause d)).1 = (url, "error", d) ∧
    (PingPy.ping_host url (NetResult.timeout d)).1 = (url, "error", d) := by
  refine ⟨?_, rfl, rfl⟩
  by_cases h : status < 400 <;>
    simp [PingPy.ping_host, PingPy.ping_host_sink, h]

/-- C4: the prober is a total function (it always returns a probe outcome for
every session behaviour and URL; the only exceptional paths of the modelled
call are the two caught exception classes), and the outcome component of its
result is independent of the diagnostic sink: any two sinks, in any two
states, yield the same outcome, which is also the outcome of the concrete
stderr-line version. -/
theorem C4_sink_independent {σ₁ σ₂ : Type}
    (emit₁ : String → σ₁ → σ₁) (emit₂ : String → σ₂ → σ₂) (s₁ : σ₁) (s₂ : σ₂)
    (url : String) (net : NetResult) :
    (PingPy.ping_host_sink emit₁ s₁ url net).1 = (PingPy.ping_host url net).1 ∧
    (PingPy.ping_host_sink emit₁ s₁ url net).1 =
      (PingPy.ping_host_sink emit₂ s₂ url net).1 := by
  constructor <;>
    · cases net <;> first
        | rfl
        | (simp only [PingPy.ping_host, PingPy.ping_host_sink]; split <;> rfl)

/-- C10: the helper functions duplicated between the modules and src/main.py
are extensionally equal: `ping_host` of src/ping.py and of src/main.py return
the same outcome tuple and the same stderr lines on every input, and
`validate_urls` (and `validate_count`) of src/validation.py and of
src/main.py return identical results on every input. -/
theorem C10_duplicates_agree :
    (∀ url net, PingPy.ping_host url net = MainPy.ping_host url net) ∧
    (∀ raw_hosts, ValidationPy.validate_urls raw_hosts = MainPy.validate_urls raw_hosts) ∧
    (∀ count, ValidationPy.validate_count count = MainPy.validate_count count) := by
  refine ⟨fun url net => ?_, fun raw_hosts => rfl, fun count => rfl⟩
  cases net <;> rfl

/-- C8: a repeat count below 1 is rejected by the count validator of both
modules and makes the whole run fail with the count configuration error, for
every host list and every network behaviour (so no probe is ever issued: the
result does not depend on the network oracle); a count of at least 1 passes
the validator. -/
theorem C8_count_validation (countArg : Int) :
    (countArg < 1 →
      MainPy.validate_count countArg = Except.error ExitError.badCount ∧
      ValidationPy.validate_count countArg = Except.error ExitError.badCount ∧
      ∀ raw_hosts net,
        MainPy.mainRun countArg raw_hosts net = Except.error ExitError.badCount) ∧
    (1 ≤ countArg →
      MainPy.validate_count countArg = Except.ok () ∧
      ValidationPy.validate_count countArg = Except.ok ()) := by
  constructor
  · intro h
    have hv : MainPy.validate_count countArg = Except.error ExitError.badCount := by
      simp [MainPy.validate_count, h]
    refine ⟨hv, by simp [ValidationPy.validate_count, h], fun raw_hosts net => ?_⟩
    simp [MainPy.mainRun, hv]
  · intro h
    have h' : ¬ countArg < 1 := not_lt.mpr h
    exact ⟨by simp [MainPy.validate_count, h'],
           by simp [ValidationPy.validate_count, h']⟩

/-- Witness for C8 at the concrete counts 0 and 1. -/
theorem C8_count_validation_witness :
    MainPy.validate_count 0 = Except.error ExitError.badCount ∧
    MainPy.mainRun 0 ["https://a.test"] (fun _ => NetResult.response 200 1) =
      Except.error ExitError.badCount ∧
    MainPy.validate_count 1 = Except.ok () := by
  have h0 := C8_count_validation 0
  have h1 := C8_count_validation 1
  exact ⟨(h0.1 (by decide)).1, (h0.1 (by decide)).2.2 _ _, (h1.2 (by decide)).1⟩

/-- C1 counterexample: with the validated host list containing the same URL
twice and a repeat count of 1, the single reported entry for that host has
success + failed + error = 2, while the number of probes issued per list
entry (the count) is 1; so the reported sum is not the count. -/
theorem C1_counterexample :
    MainPy.mainRun 1 ["https://a.test", "https://a.test"]
        (fun _ => NetResult.response 200 1) =
      Except.ok [("https://a.test",
        { success := 2, failed := 0, error := 0, time := [1, 1] })] ∧
    2 + 0 + 0 ≠ (1 : Int).toNat := ⟨rfl, by decide⟩

/-- C3 counterexample: the empty string is not a valid target (it has neither
scheme nor netloc), yet an input list containing it together with one valid
URL passes validation and the run proceeds to probe the valid URL: invalid
empty entries are silently skipped instead of failing the run. -/
theorem C3_counterexample :
    isValidTarget "" = false ∧
    MainPy.validate_urls ["https://a.test", ""] = Except.ok ["https://a.test"] ∧
    MainPy.mainRun 1 ["https://a.test", ""] (fun _ => NetResult.response 200 1) =
      Except.ok [("https://a.test",
        { success := 1, failed := 0, error := 0, time := [1] })] :=
  ⟨rfl, rfl, rfl⟩

theorem ping_host_fst (url : String) (net : NetResult) :
    (MainPy.ping_host url net).1.1 = url := by
  cases net with
  | response status duration =>
    by_cases h : status < 400 <;> simp [MainPy.ping_host, h]
  | clientError cause duration => rfl
  | timeout duration => rfl

theorem ping_host_status (url : String) (net : NetResult) :
    (MainPy.ping_host url net).1.2.1 = "success" ∨
    (MainPy.ping_host url net).1.2.1 = "failed" ∨
    (MainPy.ping_host url net).1.2.1 = "error" := by
  cases net with
  | response status duration =>
    by_cases h : status < 400 <;> simp [MainPy.ping_host, h]
  | clientError cause duration => exact Or.inr (Or.inr rfl)
  | timeout duration => exact Or.inr (Or.inr rfl)

theorem foldl_append_unit {α : Type} (u : String) (l : List α) :
    ∀ acc : List String,
      l.foldl (fun a _ => a ++ [u]) acc = acc ++ List.replicate l.length u := by
  induction l with
  | nil => intro acc; simp
  | cons x t ih =>
    intro acc
    simp only [List.foldl_cons, List.length_cons, ih, List.replicate_succ]
    simp [List.append_assoc]

theorem buildTasks_eq_join (hosts : List String) (count : Nat) :
    MainPy.buildTasks hosts count =
      (hosts.map (fun h => List.replicate count h)).flatten := by
  have main : ∀ (hs : List String) (acc : List String),
      hs.foldl (fun a host => (List.range count).foldl (fun a2 _ => a2 ++ [host]) a) acc
        = acc ++ (hs.map (fun h => List.replicate count h)).flatten := by
    intro hs
    induction hs with
    | nil => intro acc; simp
    | cons h t ih =>
      intro acc
      simp only [List.foldl_cons, List.map_cons, List.flatten_cons]
      rw [foldl_append_unit, List.length_range, ih, List.append_assoc]
  simpa using main hosts []

theorem length_buildTasks (hosts : List String) (count : Nat) :
    (MainPy.buildTasks hosts count).length = hosts.length * count := by
  rw [buildTasks_eq_join]
  induction hosts with
  | nil => simp
  | cons h t ih =>
    simp only [List.map_cons, List.flatten_cons, List.length_append,
      List.length_replicate, ih, List.length_cons, Nat.succ_mul]
    ring

theorem count_buildTasks (hosts : List String) (count : Nat) (h : String) :
    (MainPy.buildTasks hosts count).count h = count * hosts.count h := by
  rw [buildTasks_eq_join]
  induction hosts with
  | nil => simp
  | cons u t ih =>
    simp only [List.map_cons, List.flatten_cons, List.count_append, ih, List.count_cons]
    by_cases hu : u = h
    · subst hu
      simp [List.count_replicate, Nat.mul_add, Nat.add_comm]
    · have hu2 : ¬ h = u := fun hh => hu hh.symm
      simp [List.count_replicate, hu, hu2, Nat.mul_add]

/-- C5: the dispatch loop creates exactly `len(hosts) * count` probe tasks,
grouped as `count` consecutive repetitions per URL in the iteration order of
the host list; in particular each URL is probed `count` times per occurrence
in the list. -/
theorem C5_dispatch (hosts : List String) (count : Nat) (hc : 0 < count) :
    (MainPy.buildTasks hosts count).length = hosts.length * count ∧
    MainPy.buildTasks hosts count =
      (hosts.map (fun h => List.replicate count h)).flatten ∧
    ∀ h, (MainPy.buildTasks hosts count).count h = count * hosts.count h :=
  ⟨length_buildTasks hosts count, buildTasks_eq_join hosts count,
   fun h => count_buildTasks hosts count h⟩

/-- Witness for C5 at two hosts and count 2. -/
theorem C5_dispatch_witness :
    (MainPy.buildTasks ["https://a.test", "https://b.test"] 2).length = 2 * 2 ∧
    MainPy.buildTasks ["https://a.test", "https://b.test"] 2 =
      ["https://a.test", "https://a.test", "https://b.test", "https://b.test"] ∧
    (MainPy.buildTasks ["https://a.test", "https://b.test"] 2).count "https://a.test" = 2 := by
  have h := C5_dispatch ["https://a.test", "https://b.test"] 2 (by decide)
  refine ⟨h.1, ?_, by simpa using h.2.2 "https://a.test"⟩
  rw [h.2.1]
  rfl

theorem bump_success (d : MainPy.HostData) (dur : ℚ) :
    MainPy.bump d "success" dur =
      { d with success := d.success + 1, time := d.time ++ [dur] } := rfl

theorem bump_failed (d : MainPy.HostData) (dur : ℚ) :
    MainPy.bump d "failed" dur = { d with failed := d.failed + 1 } := rfl

theorem bump_error (d : MainPy.HostData) (dur : ℚ) :
    MainPy.bump d "error" dur = { d with error := d.error + 1 } := rfl

theorem bump_sum (d : MainPy.HostData) (status : String) (dur : ℚ)
    (h : status = "success" ∨ status = "failed" ∨ status = "error") :
    (MainPy.bump d status dur).success + (MainPy.bump d status dur).failed +
      (MainPy.bump d status dur).error = d.success + d.failed + d.error + 1 := by
  rcases h with h | h | h <;> subst h
  · rw [bump_success]; dsimp only; omega
  · rw [bump_failed]; dsimp only; omega
  · rw [bump_error]; dsimp only; omega

theorem bump_time (d : MainPy.HostData) (status : String) (dur : ℚ)
    (h : d.time.length = d.success) :
    (MainPy.bump d status dur).time.length = (MainPy.bump d status dur).success := by
  unfold MainPy.bump
  split_ifs <;> simp [h]

theorem accFold_sum (l : List ProbeOutcome) :
    ∀ d : MainPy.HostData,
      (∀ r ∈ l, r.2.1 = "success" ∨ r.2.1 = "failed" ∨ r.2.1 = "error") →
      (accFold l d).success + (accFold l d).failed + (accFold l d).error =
        d.success + d.failed + d.error + l.length := by
  induction l with
  | nil => intro d _; simp [accFold]
  | cons r t ih =>
    intro d hval
    have hr := hval r (List.mem_cons_self _ _)
    have ht := fun x hx => hval x (List.mem_cons_of_mem _ hx)
    have hfold : accFold (r :: t) d = accFold t (MainPy.bump d r.2.1 r.2.2) := rfl
    rw [hfold, ih _ ht, bump_sum d r.2.1 r.2.2 hr]
    simp only [List.length_cons]
    omega

theorem accFold_time (l : List ProbeOutcome) :
    ∀ d : MainPy.HostData, d.time.length = d.success →
      (accFold l d).time.length = (accFold l d).success := by
  induction l with
  | nil => intro d h; simpa [accFold] using h
  | cons r t ih =>
    intro d h
    have hfold : accFold (r :: t) d = accFold t (MainPy.bump d r.2.1 r.2.2) := rfl
    rw [hfold]
    exact ih _ (bump_time d r.2.1 r.2.2 h)

theorem runProbesFrom_fst (net : Nat → NetResult) :
    ∀ (tasks : List String) (i : Nat),
      (MainPy.runProbesFrom i tasks net).map (fun r => r.1) = tasks := by
  intro tasks
  induction tasks with
  | nil => intro i; rfl
  | cons t ts ih =>
    intro i
    simp [MainPy.runProbesFrom, ping_host_fst, ih]

theorem runProbesFrom_status (net : Nat → NetResult) :
    ∀ (tasks : List String) (i : Nat) (r : ProbeOutcome),
      r ∈ MainPy.runProbesFrom i tasks net →
      r.2.1 = "success" ∨ r.2.1 = "failed" ∨ r.2.1 = "error" := by
  intro tasks
  induction tasks with
  | nil => intro i r hr; simp [MainPy.runProbesFrom] at hr
  | cons t ts ih =>
    intro i r hr
    rcases List.mem_cons.mp hr with hr | hr
    · subst hr; exact ping_host_status t (net i)
    · exact ih (i + 1) r hr

theorem runProbesFrom_occurrences (net : Nat → NetResult) (h : String) :
    ∀ (tasks : List String) (i : Nat),
      (occurrencesOf (MainPy.runProbesFrom i tasks net) h).length = tasks.count h := by
  intro tasks
  induction tasks with
  | nil => intro i; rfl
  | cons t ts ih =>
    intro i
    have hfst : (MainPy.ping_host t (net i)).1.1 = t := ping_host_fst t (net i)
    simp only [MainPy.runProbesFrom, occurrencesOf, List.filter_cons, hfst,
      List.count_cons]
    by_cases ht : t = h
    · simp only [ht, beq_self_eq_true, if_pos, List.length_cons]
      have hih := ih (i + 1)
      simp only [occurrencesOf] at hih
      rw [hih]
    · have hbeq : (t == h) = false := beq_eq_false_iff_ne.mpr ht
      have hbeq2 : (h == t) = false := beq_eq_false_iff_ne.mpr (fun e => ht e.symm)
      simp only [hbeq, hbeq2, Bool.false_eq_true, if_false]
      have hih := ih (i + 1)
      simp only [occurrencesOf] at hih
      rw [hih]
      omega

theorem keysOf_cons (p : String × MainPy.HostData)
    (rest : List (String × MainPy.HostData)) :
    keysOf (p :: rest) = p.1 :: keysOf rest := rfl

theorem lookupHost_addOutcome (r : ProbeOutcome) (h : String) :
    ∀ s : List (String × MainPy.HostData),
      lookupHost (MainPy.addOutcome s r) h =
        if r.1 = h then
          some (MainPy.bump ((lookupHost s h).getD MainPy.emptyData) r.2.1 r.2.2)
        else lookupHost s h := by
  intro s
  induction s with
  | nil =>
    by_cases hr : r.1 = h <;> simp [MainPy.addOutcome, lookupHost, hr]
  | cons p rest ih =>
    obtain ⟨u, d⟩ := p
    by_cases hu : u = r.1
    · by_cases hh : u = h
      · have hr1 : r.1 = h := hu ▸ hh
        simp only [MainPy.addOutcome, if_pos hu, lookupHost, if_pos hh, if_pos hr1,
          Option.getD_some]
      · have hr1 : ¬ r.1 = h := fun e => hh (hu.trans e)
        simp only [MainPy.addOutcome, if_pos hu, lookupHost, if_neg hh, if_neg hr1]
    · simp only [MainPy.addOutcome, if_neg hu]
      by_cases hh : u = h
      · have hr1 : ¬ r.1 = h := fun e => hu (hh.trans e.symm)
        simp only [lookupHost, if_pos hh, if_neg hr1]
      · simp only [lookupHost, if_neg hh]
        exact ih

theorem lookupHost_foldl (h : String) :
    ∀ (res : List ProbeOutcome) (s : List (String × MainPy.HostData)),
      lookupHost (List.foldl MainPy.addOutcome s res) h =
        if occurrencesOf res h = [] then lookupHost s h
        else some (accFold (occurrencesOf res h)
          ((lookupHost s h).getD MainPy.emptyData)) := by
  intro res
  induction res with
  | nil => intro s; simp [occurrencesOf]
  | cons r t ih =>
    intro s
    simp only [List.foldl_cons]
    rw [ih (MainPy.addOutcome s r), lookupHost_addOutcome r h s]
    by_cases hr : r.1 = h
    · have hocc : occurrencesOf (r :: t) h = r :: occurrencesOf t h := by
        simp [occurrencesOf, List.filter_cons, hr]
      rw [hocc]
      by_cases hocc2 : occurrencesOf t h = []
      · simp [hocc2, hr, accFold]
      · simp only [hocc2, if_neg hocc2, if_pos hr]
        have hcons : ¬ (r :: occurrencesOf t h = []) := by simp
        rw [if_neg hcons]
        have hfold : accFold (r :: occurrencesOf t h)
            ((lookupHost s h).getD MainPy.emptyData) =
            accFold (occurrencesOf t h)
              (MainPy.bump ((lookupHost s h).getD MainPy.emptyData) r.2.1 r.2.2) := rfl
        rw [hfold]
        simp
    · have hocc : occurrencesOf (r :: t) h = occurrencesOf t h := by
        simp [occurrencesOf, List.filter_cons, hr]
      rw [hocc, if_neg hr]

theorem keysOf_addOutcome (r : ProbeOutcome) :
    ∀ s, keysOf (MainPy.addOutcome s r) =
      if r.1 ∈ keysOf s then keysOf s else keysOf s ++ [r.1] := by
  intro s
  induction s with
  | nil => simp [MainPy.addOutcome, keysOf]
  | cons p rest ih =>
    obtain ⟨u, d⟩ := p
    by_cases hu : u = r.1
    · have hmem : r.1 ∈ keysOf ((u, d) :: rest) := by
        rw [keysOf_cons]
        exact hu ▸ List.mem_cons_self u (keysOf rest)
      rw [if_pos hmem]
      simp only [MainPy.addOutcome, if_pos hu]
      rfl
    · have hne : r.1 ≠ u := fun e => hu e.symm
      simp only [MainPy.addOutcome, if_neg hu]
      rw [keysOf_cons, ih]
      by_cases hm : r.1 ∈ keysOf rest
      · have hmem : r.1 ∈ keysOf ((u, d) :: rest) := by
          rw [keysOf_cons]; exact List.mem_cons_of_mem _ hm
        rw [if_pos hm, if_pos hmem, keysOf_cons]
      · have hmem : r.1 ∉ keysOf ((u, d) :: rest) := by
          rw [keysOf_cons]
          intro hx
          rcases List.mem_cons.mp hx with hx | hx
          · exact hne hx
          · exact hm hx
        rw [if_neg hm, if_neg hmem, keysOf_cons]
        rfl

theorem firstOccurrences_subset :
    ∀ (l : List String) (x : String), x ∈ firstOccurrences l → x ∈ l := by
  intro l
  induction l using firstOccurrences.induct with
  | case1 => intro x hx; simp [firstOccurrences] at hx
  | case2 a t ih =>
    intro x hx
    rw [firstOccurrences] at hx
    rcases List.mem_cons.mp hx with h | h
    · subst h; exact List.mem_cons_self _ _
    · exact List.mem_cons_of_mem _ (List.mem_of_mem_filter (ih _ h))

theorem firstOccurrences_nodup : ∀ l : List String, (firstOccurrences l).Nodup := by
  intro l
  induction l using firstOccurrences.induct with
  | case1 => simp [firstOccurrences]
  | case2 a t ih =>
    rw [firstOccurrences]
    refine List.nodup_cons.mpr ⟨?_, ih⟩
    intro ha
    have hmem := firstOccurrences_subset _ _ ha
    have hne := List.of_mem_filter hmem
    simp at hne

theorem mem_iff_lookupHost (h : String) (d : MainPy.HostData) :
    ∀ s : List (String × MainPy.HostData), (keysOf s).Nodup →
      ((h, d) ∈ s ↔ lookupHost s h = some d) := by
  intro s
  induction s with
  | nil => intro _; simp [lookupHost]
  | cons p rest ih =>
    obtain ⟨u, d0⟩ := p
    intro hnd
    have hnd2 : (keysOf rest).Nodup := (List.nodup_cons.mp (by simpa [keysOf] using hnd)).2
    have hu_not : u ∉ keysOf rest := (List.nodup_cons.mp (by simpa [keysOf] using hnd)).1
    constructor
    · intro hm
      rcases List.mem_cons.mp hm with hm | hm
      · rw [Prod.mk.injEq] at hm
        obtain ⟨h1, h2⟩ := hm
        simp [lookupHost, h1, h2]
      · have hk : h ∈ keysOf rest := by
          simpa [keysOf] using List.mem_map_of_mem Prod.fst hm
        have hne : ¬ u = h := fun e => hu_not (e ▸ hk)
        simp only [lookupHost, if_neg hne]
        exact (ih hnd2).mp hm
    · intro hl
      simp only [lookupHost] at hl
      by_cases hu : u = h
      · rw [if_pos hu] at hl
        injection hl with hl
        subst hu
        subst hl
        exact List.mem_cons_self _ _
      · rw [if_neg hu] at hl
        exact List.mem_cons_of_mem _ ((ih hnd2).mpr hl)

theorem keysOf_foldl :
    ∀ (res : List ProbeOutcome) (s : List (String × MainPy.HostData)),
      keysOf (List.foldl MainPy.addOutcome s res) =
        keysOf s ++ firstOccurrences
          ((res.map (fun r => r.1)).filter (fun u => decide (u ∉ keysOf s))) := by
  intro res
  induction res with
  | nil => intro s; simp [firstOccurrences]
  | cons r t ih =>
    intro s
    simp only [List.foldl_cons, List.map_cons, List.filter_cons]
    rw [ih (MainPy.addOutcome s r), keysOf_addOutcome]
    by_cases hr : r.1 ∈ keysOf s
    · rw [if_pos hr]
      have hd : decide (r.1 ∉ keysOf s) = false := by simp [hr]
      rw [hd]
      simp only [Bool.false_eq_true, if_false]
    · rw [if_neg hr]
      have hd : decide (r.1 ∉ keysOf s) = true := by simp [hr]
      rw [hd]
      simp only [if_pos]
      rw [firstOccurrences]
      have hfilter :
          (t.map (fun r => r.1)).filter (fun u => decide (u ∉ keysOf s ++ [r.1])) =
          ((t.map (fun r => r.1)).filter (fun u => decide (u ∉ keysOf s))).filter
            (fun b => b != r.1) := by
        rw [List.filter_filter]
        refine List.filter_congr ?_
        intro u _
        by_cases h1 : u ∈ keysOf s <;> by_cases h2 : u = r.1 <;>
          simp [h1, h2, List.mem_append]
      rw [hfilter]
      rw [List.append_assoc]
      rfl

/-- C7: the hosts of the final report appear in the order of the first
occurrence of each host among the gathered outcomes: the key sequence of the
statistics produced by the reduction (which is the iteration order of the
rendering loop) is exactly the first-occurrence subsequence of the URL
sequence of the results. -/
theorem C7_first_occurrence_order (results : List ProbeOutcome) :
    keysOf (MainPy.buildStats results) =
      firstOccurrences (results.map (fun r => r.1)) := by
  have h := keysOf_foldl results []
  have hfilter : (results.map (fun r => r.1)).filter
      (fun u => decide (u ∉ keysOf [])) = results.map (fun r => r.1) := by
    refine List.filter_eq_self.mpr ?_
    intro u _
    simp [keysOf]
  rw [MainPy.buildStats, h, hfilter]
  rfl

theorem buildStats_keys_nodup (res : List ProbeOutcome) :
    (keysOf (MainPy.buildStats res)).Nodup := by
  have h := keysOf_foldl res []
  rw [MainPy.buildStats, h]
  have hnil : keysOf ([] : List (String × MainPy.HostData)) = [] := rfl
  rw [hnil, List.nil_append]
  exact firstOccurrences_nodup _

/-- C1 (amended): for every host in the final report, success + failed +
error equals the number of probes issued for that host, which is the repeat
count times the multiplicity of the host in the validated URL list (hence
equals the count exactly when the validated list has no duplicates), and the
length of the collected duration list equals the success count. -/
theorem C1_amended (countArg : Int) (raw_hosts : List String) (net : Nat → NetResult)
    (stats : List (String × MainPy.HostData)) (hosts : List String)
    (hok : MainPy.validate_urls raw_hosts = Except.ok hosts)
    (hrun : MainPy.mainRun countArg raw_hosts net = Except.ok stats) :
    ∀ h d, (h, d) ∈ stats →
      d.success + d.failed + d.error = countArg.toNat * hosts.count h ∧
      d.time.length = d.success := by
  intro h d hmem
  by_cases hc1 : countArg < 1
  · simp [MainPy.mainRun, MainPy.validate_count, hc1] at hrun
  · simp only [MainPy.mainRun, MainPy.validate_count, if_neg hc1, hok,
      Except.ok.injEq] at hrun
    subst hrun
    have hnodup := buildStats_keys_nodup
      (MainPy.runProbes (MainPy.buildTasks hosts countArg.toNat) net)
    have hlook := (mem_iff_lookupHost h d _ hnodup).mp hmem
    have hfold : lookupHost (MainPy.buildStats
        (MainPy.runProbes (MainPy.buildTasks hosts countArg.toNat) net)) h =
        if occurrencesOf
            (MainPy.runProbes (MainPy.buildTasks hosts countArg.toNat) net) h = [] then
          none
        else some (accFold (occurrencesOf
            (MainPy.runProbes (MainPy.buildTasks hosts countArg.toNat) net) h)
          MainPy.emptyData) := by
      simpa [MainPy.buildStats, lookupHost] using
        lookupHost_foldl h (MainPy.runProbes (MainPy.buildTasks hosts countArg.toNat) net) []
    rw [hfold] at hlook
    by_cases hocc : occurrencesOf
        (MainPy.runProbes (MainPy.buildTasks hosts countArg.toNat) net) h = []
    · rw [if_pos hocc] at hlook; cases hlook
    · rw [if_neg hocc] at hlook
      injection hlook with hlook
      subst hlook
      constructor
      · have hval : ∀ r ∈ occurrencesOf
              (MainPy.runProbes (MainPy.buildTasks hosts countArg.toNat) net) h,
            r.2.1 = "success" ∨ r.2.1 = "failed" ∨ r.2.1 = "error" := by
          intro r hr
          refine runProbesFrom_status net (MainPy.buildTasks hosts countArg.toNat) 0 r ?_
          exact List.mem_of_mem_filter hr
        rw [accFold_sum _ MainPy.emptyData hval]
        have hlen := runProbesFrom_occurrences net h
          (MainPy.buildTasks hosts countArg.toNat) 0
        have hcnt := count_buildTasks hosts countArg.toNat h
        simp only [MainPy.runProbes]
        rw [hlen, hcnt]
        simp [MainPy.emptyData]
      · exact accFold_time _ _ rfl

/-- Witness for C1 (amended): a duplicated host with count 1 receives 2
probes; the reported sums match count times multiplicity. -/
theorem C1_amended_witness :
    ({ success := 2, failed := 0, error := 0,
       time := [1, 1] } : MainPy.HostData).success + 0 + 0 =
      (1 : Int).toNat * (["https://a.test", "https://a.test"].count "https://a.test") ∧
    ([1, 1] : List ℚ).length = 2 := by
  have h := C1_amended 1 ["https://a.test", "https://a.test"]
    (fun _ => NetResult.response 200 1)
    [("https://a.test", { success := 2, failed := 0, error := 0, time := [1, 1] })]
    ["https://a.test", "https://a.test"] rfl rfl
    "https://a.test" { success := 2, failed := 0, error := 0, time := [1, 1] }
    (List.mem_singleton.mpr rfl)
  exact ⟨h.1, h.2⟩

theorem bump_counts_congr (d₁ d₂ : MainPy.HostData) (st : String) (dur₁ dur₂ : ℚ)
    (h1 : d₁.success = d₂.success) (h2 : d₁.failed = d₂.failed)
    (h3 : d₁.error = d₂.error) :
    (MainPy.bump d₁ st dur₁).success = (MainPy.bump d₂ st dur₂).success ∧
    (MainPy.bump d₁ st dur₁).failed = (MainPy.bump d₂ st dur₂).failed ∧
    (MainPy.bump d₁ st dur₁).error = (MainPy.bump d₂ st dur₂).error := by
  unfold MainPy.bump
  split_ifs <;> simp_all

theorem countsProj_addOutcome :
    ∀ (s₁ s₂ : List (String × MainPy.HostData)) (u st : String) (dur₁ dur₂ : ℚ),
      countsProj s₁ = countsProj s₂ →
      countsProj (MainPy.addOutcome s₁ (u, st, dur₁)) =
        countsProj (MainPy.addOutcome s₂ (u, st, dur₂)) := by
  intro s₁
  induction s₁ with
  | nil =>
    intro s₂ u st dur₁ dur₂ h
    have hnil : s₂ = [] := by
      cases s₂ with
      | nil => rfl
      | cons p t => simp [countsProj] at h
    subst hnil
    have hb := bump_counts_congr MainPy.emptyData MainPy.emptyData st dur₁ dur₂ rfl rfl rfl
    simp [MainPy.addOutcome, countsProj, hb.1, hb.2.1, hb.2.2]
  | cons p₁ t₁ ih =>
    intro s₂ u st dur₁ dur₂ h
    cases s₂ with
    | nil => simp [countsProj] at h
    | cons p₂ t₂ =>
      obtain ⟨u₁, d₁⟩ := p₁
      obtain ⟨u₂, d₂⟩ := p₂
      simp only [countsProj, List.map_cons, List.cons.injEq, Prod.mk.injEq] at h
      obtain ⟨⟨hu, hs, hf, he⟩, ht⟩ := h
      subst hu
      by_cases huu : u₁ = u
      · have hb := bump_counts_congr d₁ d₂ st dur₁ dur₂ hs hf he
        simp only [MainPy.addOutcome, if_pos huu, countsProj, List.map_cons]
        refine congrArg₂ List.cons ?_ ht
        exact Prod.ext rfl (Prod.ext hb.1 (Prod.ext hb.2.1 hb.2.2))
      · simp only [MainPy.addOutcome, if_neg huu, countsProj, List.map_cons]
        refine congrArg₂ List.cons ?_ ?_
        · exact Prod.ext rfl (Prod.ext hs (Prod.ext hf he))
        · exact ih t₂ u st dur₁ dur₂ ht

theorem countsProj_foldl :
    ∀ (res₁ res₂ : List ProbeOutcome) (s₁ s₂ : List (String × MainPy.HostData)),
      res₁.map (fun r => (r.1, r.2.1)) = res₂.map (fun r => (r.1, r.2.1)) →
      countsProj s₁ = countsProj s₂ →
      countsProj (List.foldl MainPy.addOutcome s₁ res₁) =
        countsProj (List.foldl MainPy.addOutcome s₂ res₂) := by
  intro res₁
  induction res₁ with
  | nil =>
    intro res₂ s₁ s₂ h hs
    cases res₂ with
    | nil => exact hs
    | cons r t => simp at h
  | cons r₁ t₁ ih =>
    intro res₂ s₁ s₂ h hs
    cases res₂ with
    | nil => simp at h
    | cons r₂ t₂ =>
      simp only [List.map_cons, List.cons.injEq, Prod.mk.injEq] at h
      obtain ⟨⟨h1, h2⟩, ht⟩ := h
      simp only [List.foldl_cons]
      refine ih t₂ _ _ ht ?_
      have key := countsProj_addOutcome s₁ s₂ r₁.1 r₁.2.1 r₁.2.2 r₂.2.2 hs
      have e2 : (r₁.1, r₁.2.1, r₂.2.2) = r₂ := by rw [h1, h2]
      rw [e2] at key
      exact key

/-- C9: the per-host classification counts of the final report are a
deterministic function of the (host, classification) sequence of the
outcomes: two result lists with identical URL and status sequences produce
identical count projections, whatever their durations. -/
theorem C9_deterministic_counts (res₁ res₂ : List ProbeOutcome)
    (h : res₁.map (fun r => (r.1, r.2.1)) = res₂.map (fun r => (r.1, r.2.1))) :
    countsProj (MainPy.buildStats res₁) = countsProj (MainPy.buildStats res₂) :=
  countsProj_foldl res₁ res₂ [] [] h rfl

/-- Witness for C9: same classifications, different durations. -/
theorem C9_deterministic_counts_witness :
    countsProj (MainPy.buildStats [("https://a.test", "success", 1)]) =
      countsProj (MainPy.buildStats [("https://a.test", "success", 2)]) :=
  C9_deterministic_counts _ _ rfl

theorem validate_urls_foldl :
    ∀ (raw_hosts : List String) (acc : List String × List String),
      raw_hosts.foldl
        (fun (acc : List String × List String) host =>
          if host = "" then acc
          else
            match urlparse host with
            | Except.ok parsed =>
              if parsed.scheme ≠ "" ∧ parsed.netloc ≠ "" then (acc.1 ++ [host], acc.2)
              else (acc.1, acc.2 ++ [host])
            | Except.error _ => (acc.1, acc.2 ++ [host]))
        acc =
      (acc.1 ++ raw_hosts.filter (fun s => s != "" && isValidTarget s),
       acc.2 ++ raw_hosts.filter (fun s => s != "" && !(isValidTarget s))) := by
  intro raw_hosts
  induction raw_hosts with
  | nil => intro acc; simp
  | cons hhost t ih =>
    intro acc
    simp only [List.foldl_cons, List.filter_cons]
    by_cases h0 : hhost = ""
    · subst h0
      simp only [if_pos rfl]
      rw [ih]
      simp
    · have hne : (hhost != "") = true := by simp [h0]
      cases hp : urlparse hhost with
      | ok parsed =>
        by_cases hv : parsed.scheme ≠ "" ∧ parsed.netloc ≠ ""
        · have hvt : isValidTarget hhost = true := by
            simp only [isValidTarget, hp]
            simp [hv.1, hv.2]
          simp only [if_neg h0, hp, if_pos hv]
          rw [ih]
          simp [hne, hvt, List.append_assoc]
        · have hvt : isValidTarget hhost = false := by
            simp only [isValidTarget, hp]
            rcases not_and_or.mp hv with hv1 | hv1 <;> simp at hv1 <;> simp [hv1]
          simp only [if_neg h0, hp, if_neg hv]
          rw [ih]
          simp [hne, hvt, List.append_assoc]
      | error e =>
        have hvt : isValidTarget hhost = false := by
          simp [isValidTarget, hp]
        simp only [if_neg h0, hp]
        rw [ih]
        simp [hne, hvt, List.append_assoc]

theorem validate_urls_invalid (raw_hosts : List String)
    (hbad : raw_hosts.filter (fun s => s != "" && !(isValidTarget s)) ≠ []) :
    MainPy.validate_urls raw_hosts =
      Except.error (ExitError.invalidUrls
        (raw_hosts.filter (fun s => s != "" && !(isValidTarget s)))) := by
  unfold MainPy.validate_urls
  rw [validate_urls_foldl raw_hosts ([], [])]
  simp [hbad]

/-- C3 (amended): when any non-empty entry of the input list is invalid (does
not parse into a non-empty scheme and netloc), the whole run fails before any
probing with a single configuration error carrying exactly the list of all
invalid non-empty entries, in input order, for every repeat count that passes
count validation and every network behaviour (the result never consults the
network oracle). Empty entries are skipped by the loop and are neither
probed nor reported. -/
theorem C3_amended (countArg : Int) (raw_hosts : List String)
    (hcount : 1 ≤ countArg)
    (hbad : ∃ host ∈ raw_hosts, host ≠ "" ∧ isValidTarget host = false) :
    MainPy.validate_urls raw_hosts =
      Except.error (ExitError.invalidUrls
        (raw_hosts.filter (fun s => s != "" && !(isValidTarget s)))) ∧
    ∀ net, MainPy.mainRun countArg raw_hosts net =
      Except.error (ExitError.invalidUrls
        (raw_hosts.filter (fun s => s != "" && !(isValidTarget s)))) := by
  obtain ⟨host, hmem, hne, hval⟩ := hbad
  have hfmem : host ∈ raw_hosts.filter (fun s => s != "" && !(isValidTarget s)) := by
    refine List.mem_filter.mpr ⟨hmem, ?_⟩
    simp [hne, hval]
  have hbad2 : raw_hosts.filter (fun s => s != "" && !(isValidTarget s)) ≠ [] :=
    List.ne_nil_of_mem hfmem
  have hv := validate_urls_invalid raw_hosts hbad2
  refine ⟨hv, fun net => ?_⟩
  have hc1 : ¬ countArg < 1 := not_lt.mpr hcount
  simp [MainPy.mainRun, MainPy.validate_count, hc1, hv]

/-- Witness for C3 (amended) at a list with one valid and one invalid entry. -/
theorem C3_amended_witness :
    MainPy.validate_urls ["https://a.test", "notaurl"] =
      Except.error (ExitError.invalidUrls ["notaurl"]) ∧
    MainPy.mainRun 1 ["https://a.test", "notaurl"] (fun _ => NetResult.response 200 1) =
      Except.error (ExitError.invalidUrls ["notaurl"]) := by
  have h := C3_amended 1 ["https://a.test", "notaurl"] (by decide)
    ⟨"notaurl", by simp, by decide, by decide⟩
  have hfil : (["https://a.test", "notaurl"].filter
      (fun s => s != "" && !(isValidTarget s))) = ["notaurl"] := rfl
  rw [hfil] at h
  exact ⟨h.1, h.2 _⟩

theorem foldl_min_le_init : ∀ (ts : List ℚ) (t : ℚ), ts.foldl min t ≤ t := by
  intro ts
  induction ts with
  | nil => intro t; exact le_refl t
  | cons u ts ih =>
    intro t
    exact le_trans (ih (min t u)) (min_le_left _ _)

theorem foldl_min_le_mem : ∀ (ts : List ℚ) (t x : ℚ), x ∈ ts → ts.foldl min t ≤ x := by
  intro ts
  induction ts with
  | nil => intro t x hx; simp at hx
  | cons u ts ih =>
    intro t x hx
    rcases List.mem_cons.mp hx with h | h
    · rw [h]
      exact le_trans (foldl_min_le_init ts (min t u)) (min_le_right t u)
    · exact ih _ x h

theorem le_foldl_max_init : ∀ (ts : List ℚ) (t : ℚ), t ≤ ts.foldl max t := by
  intro ts
  induction ts with
  | nil => intro t; exact le_refl t
  | cons u ts ih =>
    intro t
    exact le_trans (le_max_left _ _) (ih (max t u))

theorem le_foldl_max_mem : ∀ (ts : List ℚ) (t x : ℚ), x ∈ ts → x ≤ ts.foldl max t := by
  intro ts
  induction ts with
  | nil => intro t x hx; simp at hx
  | cons u ts ih =>
    intro t x hx
    rcases List.mem_cons.mp hx with h | h
    · rw [h]
      exact le_trans (le_max_right t u) (le_foldl_max_init ts (max t u))
    · exact ih _ x h

theorem length_mul_le_sum (l : List ℚ) (c : ℚ) (h : ∀ x ∈ l, c ≤ x) :
    (l.length : ℚ) * c ≤ l.sum := by
  induction l with
  | nil => simp
  | cons x t ih =>
    have hx := h x (List.mem_cons_self _ _)
    have ht := ih (fun y hy => h y (List.mem_cons_of_mem _ hy))
    simp only [List.sum_cons, List.length_cons]
    push_cast
    linarith

theorem sum_le_length_mul (l : List ℚ) (c : ℚ) (h : ∀ x ∈ l, x ≤ c) :
    l.sum ≤ (l.length : ℚ) * c := by
  induction l with
  | nil => simp
  | cons x t ih =>
    have hx := h x (List.mem_cons_self _ _)
    have ht := ih (fun y hy => h y (List.mem_cons_of_mem _ hy))
    simp only [List.sum_cons, List.length_cons]
    push_cast
    linarith

/-- C6: timing statistics exist exactly when the success-duration list is
non-empty; when it is empty the host block carries the no-statistics message
and no timing lines; when statistics are reported they satisfy
min ≤ mean ≤ max and the block carries exactly the three timing lines. -/
theorem C6_timing_stats (host : String) (d : MainPy.HostData) :
    ((MainPy.timeStats d.time).isSome ↔ d.time ≠ []) ∧
    (d.time = [] →
      MainPy.hostReport host d =
        MainPy.reportHeader host d ++
          ["  Нет успешных запросов для расчета статистики по времени.",
           MainPy.sepLine host]) ∧
    (∀ mn mx avg, MainPy.timeStats d.time = some (mn, mx, avg) →
      mn ≤ avg ∧ avg ≤ mx ∧
      MainPy.hostReport host d =
        MainPy.reportHeader host d ++
          ["  Мин. время: " ++ MainPy.fmt4 mn ++ "с",
           "  Макс. время: " ++ MainPy.fmt4 mx ++ "с",
           "  Сред. время: " ++ MainPy.fmt4 avg ++ "с",
           MainPy.sepLine host]) := by
  cases hdt : d.time with
  | nil =>
    refine ⟨by simp [MainPy.timeStats], fun _ => ?_, fun mn mx avg hstat => ?_⟩
    · simp [MainPy.hostReport, hdt, MainPy.timeStats]
    · simp [MainPy.timeStats] at hstat
  | cons t ts =>
    refine ⟨by simp [MainPy.timeStats], fun hnil => ?_, fun mn mx avg hstat => ?_⟩
    · simp at hnil
    · simp only [MainPy.timeStats, Option.some.injEq, Prod.mk.injEq] at hstat
      obtain ⟨hmn, hmx, havg⟩ := hstat
      have hpos : (0 : ℚ) < ((t :: ts).length : ℚ) := by
        simp only [List.length_cons]
        push_cast
        positivity
      have hmin_le : ∀ x ∈ t :: ts, mn ≤ x := by
        intro x hx
        rw [← hmn]
        rcases List.mem_cons.mp hx with h | h
        · rw [h]; exact foldl_min_le_init ts t
        · exact foldl_min_le_mem ts t x h
      have hle_max : ∀ x ∈ t :: ts, x ≤ mx := by
        intro x hx
        rw [← hmx]
        rcases List.mem_cons.mp hx with h | h
        · rw [h]; exact le_foldl_max_init ts t
        · exact le_foldl_max_mem ts t x h
      have h1 : mn ≤ avg := by
        rw [← havg, le_div_iff₀ hpos, mul_comm]
        exact length_mul_le_sum (t :: ts) mn hmin_le
      have h2 : avg ≤ mx := by
        rw [← havg, div_le_iff₀ hpos, mul_comm]
        exact sum_le_length_mul (t :: ts) mx hle_max
      refine ⟨h1, h2, ?_⟩
      simp only [MainPy.hostReport, hdt, MainPy.timeStats, hmn, hmx, havg]
      simp [List.append_assoc]

/-- Witness for C6 at the duration list [1, 3]: statistics 1 ≤ 2 ≤ 3. -/
theorem C6_timing_stats_witness :
    (1 : ℚ) ≤ 2 ∧ (2 : ℚ) ≤ 3 := by
  have h := (C6_timing_stats "https://a.test"
    { success := 2, failed := 0, error := 0, time := [1, 3] }).2.2 1 3 2 (by
      simp [MainPy.timeStats]
      norm_num)
  exact ⟨h.1, h.2.1⟩

end PingTool
